import Mathlib

/-!
# Verification of the tcr unified-search subsystem

Shallow embedding of the search controller (`search` package), file-list
panel and diff panel (`panels` package) of the tcr code-review tool,
together with the application coordinator's preload-batch event handler.

Conventions of the embedding:
* Go `nil` vs non-nil slices are modelled as `Option (List _)`:
  `none` is the nil slice, `some l` a non-nil slice with elements `l`.
* Go `int` fields that may legitimately hold negative sentinels or
  arbitrary caller input (`cursor`, filter entries, `currentMatch`)
  are `Int`; loop-produced indices (always non-negative) are `Nat`.
* The external `fzf` process is abstracted by a boolean availability
  flag (the `exec.LookPath` result) and a deterministic match
  predicate standing for `fzf --filter query --exact` on a given text.
* The Go `map[string]string` diff cache is modelled as an association
  list with insert-at-front shadowing, which realises the same
  `get`/`put` observable behaviour.
-/

namespace Tcr

/-- File status as reported by the VCS layer (vcs.FileStatus). -/
inductive FileStatus where
  | modified
  | added
  | deleted
  | renamed
deriving DecidableEq, Repr

/-- vcs.FileChange: a changed file. -/
structure FileChange where
  path : String
  status : FileStatus
deriving DecidableEq, Repr

/-! ## Search controller (search.Controller) -/

/-- search.Controller state (textinput widget internals omitted;
`query` mirrors the input's value as synchronised by UpdateInput). -/
structure Controller where
  active : Bool
  query : String
  filteredIdxs : Option (List Nat)
  noMatches : Bool
  fzfError : String
deriving DecidableEq, Repr

/-- NewController(): initial controller state. -/
def Controller.new : Controller :=
  { active := false, query := "", filteredIdxs := none,
    noMatches := false, fzfError := "" }

/-- The per-file predicate of the SearchAllFiles loop body: the file's
diff must be present in the cache, non-empty, and contain a match
(`diffContainsMatch`, abstracted by `matcher`). -/
def filePred (diffs : String → Option String) (matcher : String → Bool)
    (path : String) : Bool :=
  match diffs path with
  | none => false
  | some content => content != "" && matcher content

/-- The list of file indices collected by the SearchAllFiles loop:
`for i, filePath := range files { ... matchingIdxs = append(matchingIdxs, i) }`. -/
def matchingIndices (files : List String) (diffs : String → Option String)
    (matcher : String → Bool) : List Nat :=
  (List.range files.length).filter (fun i => filePred diffs matcher (files.getD i ""))

/-- Controller.SearchAllFiles. `fzfAvailable` is the `exec.LookPath("fzf")`
outcome and `matcher query content` abstracts `diffContainsMatch`. -/
def Controller.SearchAllFiles (c : Controller) (query : String)
    (files : List String) (diffs : String → Option String)
    (fzfAvailable : Bool) (matcher : String → String → Bool) : Controller :=
  let c0 : Controller := { c with query := query, fzfError := "" }
  if query = "" then
    { c0 with filteredIdxs := none, noMatches := false }
  else if fzfAvailable = false then
    { c0 with fzfError := "fzf not found", filteredIdxs := none, noMatches := true }
  else
    let idxs := matchingIndices files diffs (matcher query)
    if idxs = [] then
      { c0 with filteredIdxs := none, noMatches := true }
    else
      { c0 with filteredIdxs := some idxs, noMatches := false }

/-- Controller.Status. -/
def Controller.status (c : Controller) : String :=
  if c.fzfError != "" then c.fzfError
  else if c.noMatches then "no matches"
  else
    let n := (c.filteredIdxs.getD []).length
    if n > 0 then
      if n = 1 then "1 file" else toString n ++ " files"
    else ""

/-- Controller.SearchInDiff, abstracting the per-line fzf filter by
`lineMatcher query line`. Returns `none` for the Go nil slice (empty
query, empty input, fzf missing, or no matching line); otherwise the
ascending list of matching line indices (the Go code sorts them). -/
def Controller.SearchInDiff (query : String) (lines : List String)
    (fzfAvailable : Bool) (lineMatcher : String → String → Bool) :
    Option (List Nat) :=
  if query = "" || lines.length = 0 then none
  else if fzfAvailable = false then none
  else
    let ms := (List.range lines.length).filter
      (fun i => lineMatcher query (lines.getD i ""))
    if ms = [] then none else some ms

/-! ## Files panel (panels.FilesPanel, viewport/rendering state omitted) -/

/-- panels.FilesPanel: file list, optional filter (`none` = nil slice,
`some l` = non-nil slice), and the BasePanel cursor (a file index). -/
structure FilesPanel where
  files : List FileChange
  filteredIdxs : Option (List Int)
  cursor : Int
deriving DecidableEq, Repr

/-- FilesPanel.SetFiles. -/
def FilesPanel.SetFiles (p : FilesPanel) (files : List FileChange) : FilesPanel :=
  { p with files := files, filteredIdxs := none, cursor := 0 }

/-- FilesPanel.SetFilteredIndices: stores the slice, then (only when it
is non-empty) keeps the cursor if it occurs in the new filter and
otherwise moves it to the filter's first entry. -/
def FilesPanel.SetFilteredIndices (p : FilesPanel) (indices : Option (List Int)) :
    FilesPanel :=
  let q : FilesPanel := { p with filteredIdxs := indices }
  match indices with
  | some (x :: xs) =>
      if (x :: xs).contains p.cursor then q else { q with cursor := x }
  | _ => q

/-- FilesPanel.ClearFilter. -/
def FilesPanel.ClearFilter (p : FilesPanel) : FilesPanel :=
  { p with filteredIdxs := none }

/-- FilesPanel.IsFiltered: `p.filteredIdxs != nil`. -/
def FilesPanel.IsFiltered (p : FilesPanel) : Bool :=
  p.filteredIdxs.isSome

/-- FilesPanel.displayFiles: all files when unfiltered, otherwise the
files at the in-range filter entries (out-of-range entries skipped). -/
def FilesPanel.displayFiles (p : FilesPanel) : List FileChange :=
  match p.filteredIdxs with
  | none => p.files
  | some l =>
    l.filterMap (fun idx =>
      if 0 ≤ idx && idx < (p.files.length : Int) then p.files[idx.toNat]? else none)

/-- FilesPanel.displayIndexToFileIndex. -/
def FilesPanel.displayIndexToFileIndex (p : FilesPanel) (displayIdx : Int) : Int :=
  match p.filteredIdxs with
  | none => displayIdx
  | some l =>
    if 0 ≤ displayIdx && displayIdx < (l.length : Int) then l.getD displayIdx.toNat 0
    else -1

/-- The linear scan of FilesPanel.fileIndexToDisplayIndex over the
filter slice: first position holding `fileIdx`, or -1. -/
def scanIndexOf (l : List Int) (fileIdx : Int) : Int :=
  match l with
  | [] => -1
  | x :: xs =>
    if x == fileIdx then 0
    else
      let r := scanIndexOf xs fileIdx
      if r < 0 then -1 else r + 1

/-- FilesPanel.fileIndexToDisplayIndex. -/
def FilesPanel.fileIndexToDisplayIndex (p : FilesPanel) (fileIdx : Int) : Int :=
  match p.filteredIdxs with
  | none => fileIdx
  | some l => scanIndexOf l fileIdx

/-- FilesPanel.SelectedFile: address of `files[cursor]` when the cursor
is in range, Go `nil` (here `none`) otherwise. -/
def FilesPanel.SelectedFile (p : FilesPanel) : Option FileChange :=
  if h : 0 ≤ p.cursor ∧ p.cursor < (p.files.length : Int) then
    some (p.files.get ⟨p.cursor.toNat, by omega⟩)
  else none

/-- FilesPanel.Count: filtered size when a filter slice is installed
(nil or not), else the total. -/
def FilesPanel.Count (p : FilesPanel) : Nat :=
  match p.filteredIdxs with
  | some l => l.length
  | none => p.files.length

/-- FilesPanel.TotalCount. -/
def FilesPanel.TotalCount (p : FilesPanel) : Nat :=
  p.files.length

/-- FilesPanel.FilePaths. -/
def FilesPanel.FilePaths (p : FilesPanel) : List String :=
  p.files.map FileChange.path

/-! ## Diff panel search state (panels.SearchState, panels.DiffPanel) -/

/-- panels.SearchState (textinput and externalInputView omitted).
`matchSet` carries the key set of the Go `map[int]bool` built from
`matches`; `currentMatch` is -1 when there is no current match. -/
structure SearchState where
  active : Bool
  matchList : List Nat
  matchSet : List Nat
  currentMatch : Int
  fzfError : String
deriving DecidableEq, Repr

/-- NewSearchState(). -/
def SearchState.new : SearchState :=
  { active := false, matchList := [], matchSet := [], currentMatch := -1,
    fzfError := "" }

/-- SearchState.Reset (query-input bookkeeping omitted). -/
def SearchState.Reset (s : SearchState) : SearchState :=
  { s with active := false, matchList := [], matchSet := [], currentMatch := -1,
           fzfError := "" }

/-- SearchState.HasMatches. -/
def SearchState.HasMatches (s : SearchState) : Bool :=
  s.matchList.length > 0

/-- SearchState.CurrentMatchLine. -/
def SearchState.CurrentMatchLine (s : SearchState) : Int :=
  if h : 0 ≤ s.currentMatch ∧ s.currentMatch < (s.matchList.length : Int) then
    (s.matchList.get ⟨s.currentMatch.toNat, by omega⟩ : Int)
  else -1

/-- SearchState.NextMatch: `(currentMatch + 1) % len(matches)` with
Go's truncated `%` (`Int.tmod`); no-op when there are no matches. -/
def SearchState.NextMatch (s : SearchState) : SearchState :=
  if s.matchList.length = 0 then s
  else { s with currentMatch := (s.currentMatch + 1).tmod (s.matchList.length : Int) }

/-- SearchState.PrevMatch: decrement, wrapping to `len(matches) - 1`
when the result is negative; no-op when there are no matches. -/
def SearchState.PrevMatch (s : SearchState) : SearchState :=
  if s.matchList.length = 0 then s
  else
    let c := s.currentMatch - 1
    if c < 0 then { s with currentMatch := (s.matchList.length : Int) - 1 }
    else { s with currentMatch := c }

/-- SearchState.MatchStatus. -/
def SearchState.MatchStatus (s : SearchState) : String :=
  if s.fzfError != "" then s.fzfError
  else if s.matchList.length = 0 then "no matches"
  else toString (s.currentMatch + 1) ++ "/" ++ toString s.matchList.length

/-- SearchState.IsLineMatched: lookup in the derived set. -/
def SearchState.IsLineMatched (s : SearchState) (lineIdx : Nat) : Bool :=
  s.matchSet.contains lineIdx

/-- panels.DiffPanel (viewport/rendering state omitted). -/
structure DiffPanel where
  lines : List String
  cursorLine : Nat
  filePath : String
  searchState : SearchState
deriving DecidableEq, Repr

/-- Split a string on newline characters, as Go strings.Split(s, "\n"). -/
def splitLines (s : String) : List String :=
  s.splitOn "\n"

/-- DiffPanel.SetDiff: replaces the lines, resets the line cursor, and
(when search is active) discards the previous diff's match data. -/
def DiffPanel.SetDiff (p : DiffPanel) (filePath content : String) : DiffPanel :=
  let p1 : DiffPanel :=
    { p with filePath := filePath, lines := splitLines content, cursorLine := 0 }
  if p1.searchState.active then
    { p1 with searchState :=
        { p1.searchState with matchList := [], matchSet := [], currentMatch := -1 } }
  else p1

/-- DiffPanel.SetSearchMatches: installs the match list and its derived
lookup set; non-empty lists set the current match to 0 and jump the
line cursor to the first match, empty lists set the marker to -1 and
leave the cursor alone. -/
def DiffPanel.SetSearchMatches (p : DiffPanel) (ms : List Nat) : DiffPanel :=
  let s : SearchState :=
    { p.searchState with matchList := ms, matchSet := ms }
  match ms with
  | m :: _ =>
    { p with searchState := { s with currentMatch := 0 }, cursorLine := m }
  | [] =>
    { p with searchState := { s with currentMatch := -1 } }

/-! ## Application coordinator (ui App) -/

/-- The diff cache `map[string]string`: association list where an
insert shadows earlier entries for the same key. -/
def DiffCache := List (String × String)

/-- Cache lookup (`content, ok := diffs[path]`). -/
def cacheGet (m : DiffCache) (k : String) : Option String :=
  match m with
  | [] => none
  | e :: rest => if e.1 == k then some e.2 else cacheGet rest k

/-- Cache write (`a.diffCache[path] = content`). -/
def cacheInsert (m : DiffCache) (k v : String) : DiffCache :=
  (k, v) :: m

/-- Merge a preload batch into the cache, in order
(`for _, result := range msg.results { a.diffCache[result.path] = result.content }`). -/
def mergeBatch (m : DiffCache) (results : List (String × String)) : DiffCache :=
  results.foldl (fun acc r => cacheInsert acc r.1 r.2) m

/-- The App state the coordinator synchronises (rendering, modal and
size bookkeeping omitted). -/
structure App where
  searchCtrl : Controller
  filesPanel : FilesPanel
  diffPanel : DiffPanel
  diffCache : DiffCache

/-- App.updateDiffSearchMatches: recompute the displayed diff's match
set from the current query (nil matches for the empty query; the
SearchInDiff error is discarded, leaving nil matches). -/
def App.updateDiffSearchMatches (a : App) (query : String)
    (fzfAvailable : Bool) (lineMatcher : String → String → Bool) : App :=
  if query = "" then
    { a with diffPanel := a.diffPanel.SetSearchMatches [] }
  else
    let ms := (Controller.SearchInDiff query a.diffPanel.lines fzfAvailable
      lineMatcher).getD []
    { a with diffPanel := a.diffPanel.SetSearchMatches ms }

/-- App.runSearch: SearchAllFiles over the cache, push the filter into
the files panel (ClearFilter when nil), then refresh the diff panel's
matches. -/
def App.runSearch (a : App) (fzfAvailable : Bool)
    (matcher lineMatcher : String → String → Bool) : App :=
  let query := a.searchCtrl.query
  let sc := a.searchCtrl.SearchAllFiles query a.filesPanel.FilePaths
    (cacheGet a.diffCache) fzfAvailable matcher
  let fp :=
    match sc.filteredIdxs with
    | some l => a.filesPanel.SetFilteredIndices (some (l.map Int.ofNat))
    | none => a.filesPanel.ClearFilter
  App.updateDiffSearchMatches
    { a with searchCtrl := sc, filesPanel := fp } query fzfAvailable lineMatcher

/-- App.Update's diffsPreloadedBatchMsg arm: merge every preloaded diff
into the cache, then re-run the search only when the search controller
is active with a non-empty query. -/
def App.handleDiffsPreloadedBatch (a : App) (results : List (String × String))
    (fzfAvailable : Bool) (matcher lineMatcher : String → String → Bool) : App :=
  let a1 : App := { a with diffCache := mergeBatch a.diffCache results }
  if a1.searchCtrl.active && a1.searchCtrl.query != "" then
    a1.runSearch fzfAvailable matcher lineMatcher
  else a1

/-! ## Concrete states used as witnesses -/

/-- Example file: a modified Go file. -/
def fileA : FileChange := { path := "a.go", status := FileStatus.modified }

/-- Example file: an added Go file. -/
def fileB : FileChange := { path := "b.go", status := FileStatus.added }

/-- Example file: a deleted Go file. -/
def fileC : FileChange := { path := "c.go", status := FileStatus.deleted }

/-- A one-file panel, unfiltered, cursor at 0. -/
def panel1 : FilesPanel := { files := [fileA], filteredIdxs := none, cursor := 0 }

/-- A three-file panel, unfiltered, cursor at file index 1. -/
def panel3 : FilesPanel :=
  { files := [fileA, fileB, fileC], filteredIdxs := none, cursor := 1 }

/-- A three-file panel filtered to `[1, 2]`, cursor at file index 1. -/
def panelF : FilesPanel :=
  { files := [fileA, fileB, fileC], filteredIdxs := some [1, 2], cursor := 1 }

/-! ## Helper lemmas -/

/-- The SearchAllFiles result indices are pairwise increasing. -/
theorem matchingIndices_pairwise (files : List String)
    (diffs : String → Option String) (matcher : String → Bool) :
    (matchingIndices files diffs matcher).Pairwise (· < ·) :=
  (List.pairwise_lt_range files.length).filter _

/-- The SearchAllFiles result indices are bounded by the file count. -/
theorem matchingIndices_lt (files : List String)
    (diffs : String → Option String) (matcher : String → Bool) :
    ∀ i ∈ matchingIndices files diffs matcher, i < files.length := by
  intro i hi
  exact List.mem_range.mp (List.mem_filter.mp hi).1

/-! ## C1 -/

/-- C1: SearchAllFiles with the empty query leaves the filter nil and
`noMatches` false and Status reports "", for any cache and fzf
availability; with a non-empty query that matches zero files (fzf
available) the filter is nil, `noMatches` is true, and Status reports
"no matches". -/
theorem tcr_C1 (c : Controller) (q : String) (files : List String)
    (diffs : String → Option String) (fzfAvailable : Bool)
    (matcher : String → String → Bool) :
    ((c.SearchAllFiles "" files diffs fzfAvailable matcher).filteredIdxs = none ∧
     (c.SearchAllFiles "" files diffs fzfAvailable matcher).noMatches = false ∧
     (c.SearchAllFiles "" files diffs fzfAvailable matcher).status = "") ∧
    (q ≠ "" → matchingIndices files diffs (matcher q) = [] →
     ((c.SearchAllFiles q files diffs true matcher).filteredIdxs = none ∧
      (c.SearchAllFiles q files diffs true matcher).noMatches = true ∧
      (c.SearchAllFiles q files diffs true matcher).status = "no matches")) := by
  constructor
  · refine ⟨rfl, rfl, ?_⟩
    simp [Controller.SearchAllFiles, Controller.status]
  · intro hq hidx
    refine ⟨?_, ?_, ?_⟩ <;>
      simp [Controller.SearchAllFiles, Controller.status, hq, hidx]

/-- C1 witness: concrete empty-query and zero-match searches. -/
theorem tcr_C1_witness :
    ("zzz" : String) ≠ "" ∧
    matchingIndices ["a.go"] (fun _ => some "x") (fun _ => false) = [] ∧
    (Controller.new.SearchAllFiles "zzz" ["a.go"] (fun _ => some "x") true
      (fun _ _ => false)).status = "no matches" ∧
    (Controller.new.SearchAllFiles "" ["a.go"] (fun _ => some "x") true
      (fun _ _ => false)).status = "" := by
  have h := tcr_C1 Controller.new "zzz" ["a.go"] (fun _ => some "x") true
    (fun _ _ => false)
  refine ⟨by decide, by decide, ?_, h.1.2.2⟩
  exact (h.2 (by decide) (by decide)).2.2

/-! ## C7 -/

/-- C7: the filter produced by SearchAllFiles is either nil or a
strictly ascending list of indices below the file count. -/
theorem tcr_C7 (c : Controller) (q : String) (files : List String)
    (diffs : String → Option String) (fzfAvailable : Bool)
    (matcher : String → String → Bool) :
    (c.SearchAllFiles q files diffs fzfAvailable matcher).filteredIdxs = none ∨
    ∃ l, (c.SearchAllFiles q files diffs fzfAvailable matcher).filteredIdxs = some l ∧
      l.Pairwise (· < ·) ∧ ∀ i ∈ l, i < files.length := by
  unfold Controller.SearchAllFiles
  split
  · exact Or.inl rfl
  · split
    · exact Or.inl rfl
    · by_cases hidx : matchingIndices files diffs (matcher q) = []
      · left
        simp [hidx]
      · right
        refine ⟨matchingIndices files diffs (matcher q), ?_,
          matchingIndices_pairwise files diffs (matcher q),
          matchingIndices_lt files diffs (matcher q)⟩
        simp [hidx]

/-! ## C2 -/

/-- Helper: SetFilteredIndices always stores the passed slice verbatim. -/
theorem SetFilteredIndices_filteredIdxs (p : FilesPanel)
    (idxs : Option (List Int)) :
    (p.SetFilteredIndices idxs).filteredIdxs = idxs := by
  unfold FilesPanel.SetFilteredIndices
  match idxs with
  | none => rfl
  | some [] => rfl
  | some (x :: xs) => dsimp only; split <;> rfl

/-- Helper: SetFilteredIndices never touches the file list. -/
theorem SetFilteredIndices_files (p : FilesPanel) (idxs : Option (List Int)) :
    (p.SetFilteredIndices idxs).files = p.files := by
  unfold FilesPanel.SetFilteredIndices
  match idxs with
  | none => rfl
  | some [] => rfl
  | some (x :: xs) => dsimp only; split <;> rfl

/-- C2 counterexample: passing the unsorted, out-of-range list `[2, 0]`
to a one-file panel installs it verbatim, so the stored filter is
neither strictly increasing nor within `[0, len(files))`. -/
theorem tcr_C2_counterexample :
    (panel1.SetFilteredIndices (some [2, 0])).filteredIdxs = some [2, 0] ∧
    ¬ (List.Pairwise (· < ·) ([2, 0] : List Int) ∧
       ∀ i ∈ ([2, 0] : List Int), 0 ≤ i ∧ i < (panel1.files.length : Int)) := by
  constructor
  · decide
  · decide

/-- C2 (amended): SetFilteredIndices installs the passed index list
verbatim, performing no validation; sanitization happens only at
display time, where displayFiles skips entries outside
`[0, len(files))`, so every displayed file is one of the panel's
files. In particular the stored filter is strictly increasing and
in-range exactly when the input is (as is every filter produced by
SearchAllFiles). -/
theorem tcr_C2_amended (p : FilesPanel) (l : List Int) :
    (p.SetFilteredIndices (some l)).filteredIdxs = some l ∧
    (∀ f ∈ (p.SetFilteredIndices (some l)).displayFiles, f ∈ p.files) := by
  refine ⟨SetFilteredIndices_filteredIdxs p (some l), ?_⟩
  intro f hf
  unfold FilesPanel.displayFiles at hf
  rw [SetFilteredIndices_filteredIdxs p (some l)] at hf
  simp only at hf
  obtain ⟨idx, _, hidx⟩ := List.mem_filterMap.mp hf
  rw [SetFilteredIndices_files p (some l)] at hidx
  by_cases hc : (decide (0 ≤ idx) && decide (idx < (p.files.length : Int))) = true
  · rw [if_pos hc] at hidx
    exact List.getElem?_mem hidx
  · rw [if_neg hc] at hidx
    cases hidx

/-- C2 witness for the amended claim: the stored filter equals the
passed list, and a concretely displayed file is one of the panel's
files. -/
theorem tcr_C2_witness :
    (panel3.SetFilteredIndices (some [2, 0])).filteredIdxs = some [2, 0] ∧
    fileC ∈ panel3.files := by
  have h := tcr_C2_amended panel3 [2, 0]
  refine ⟨h.1, h.2 fileC ?_⟩
  decide

/-! ## C3 -/

/-- C3: for a non-empty filter list, the cursor survives when its file
index occurs in the new filter and otherwise snaps to the filter's
first entry. -/
theorem tcr_C3 (p : FilesPanel) (l : List Int) (h : l ≠ []) :
    (p.cursor ∈ l → (p.SetFilteredIndices (some l)).cursor = p.cursor) ∧
    (p.cursor ∉ l → (p.SetFilteredIndices (some l)).cursor = l.headD 0) := by
  match l, h with
  | x :: xs, _ =>
    unfold FilesPanel.SetFilteredIndices
    dsimp only
    constructor
    · intro hmem
      rw [if_pos (by simpa using hmem)]
    · intro hmem
      rw [if_neg (by simpa using hmem)]
      rfl

/-- C3 witness: cursor at file index 1, new filter `[0, 2]`: cursor
moves to file index 0. -/
theorem tcr_C3_witness :
    ([0, 2] : List Int) ≠ [] ∧ panel3.cursor ∉ ([0, 2] : List Int) ∧
    (panel3.SetFilteredIndices (some [0, 2])).cursor = 0 := by
  refine ⟨by decide, by decide, ?_⟩
  exact (tcr_C3 panel3 [0, 2] (by decide)).2 (by decide)

/-! ## C9 -/

/-- C9: a non-nil empty slice installs an empty filter: IsFiltered
becomes true, Count becomes 0, and the cursor is untouched. -/
theorem tcr_C9 (p : FilesPanel) :
    (p.SetFilteredIndices (some [])).filteredIdxs = some [] ∧
    (p.SetFilteredIndices (some [])).IsFiltered = true ∧
    (p.SetFilteredIndices (some [])).Count = 0 ∧
    (p.SetFilteredIndices (some [])).cursor = p.cursor :=
  ⟨rfl, rfl, rfl, rfl⟩

/-! ## C6 -/

/-- Helper: when the target occurs in the list, the linear scan yields
an in-range position whose entry is the target. -/
theorem scanIndexOf_of_mem (l : List Int) (f : Int) (h : f ∈ l) :
    0 ≤ scanIndexOf l f ∧ scanIndexOf l f < (l.length : Int) ∧
    l.getD (scanIndexOf l f).toNat 0 = f := by
  induction l with
  | nil => cases h
  | cons x xs ih =>
    by_cases hx : x = f
    · subst hx
      simp [scanIndexOf]
    · have hmem : f ∈ xs := by
        rcases List.mem_cons.mp h with h' | h'
        · exact absurd h'.symm hx
        · exact h'
      obtain ⟨h0, hlt, hget⟩ := ih hmem
      have hbeq : (x == f) = false := by
        simpa using hx
      simp only [scanIndexOf, hbeq, Bool.false_eq_true, if_false]
      rw [if_neg (by omega)]
      have htn : (scanIndexOf xs f + 1).toNat = (scanIndexOf xs f).toNat + 1 := by
        omega
      refine ⟨by omega, by simp only [List.length_cons]; push_cast; omega, ?_⟩
      rw [htn, List.getD_cons_succ]
      exact hget

/-- Helper: when the target is absent, the linear scan yields -1. -/
theorem scanIndexOf_of_not_mem (l : List Int) (f : Int) (h : f ∉ l) :
    scanIndexOf l f = -1 := by
  induction l with
  | nil => rfl
  | cons x xs ih =>
    have hx : (x == f) = false := by
      simp only [beq_eq_false_iff_ne, ne_eq]
      intro e
      exact h (e ▸ List.mem_cons_self x xs)
    have hxs : f ∉ xs := fun m => h (List.mem_cons_of_mem _ m)
    simp [scanIndexOf, hx, ih hxs]

/-- C6: with a filter installed, fileIndexToDisplayIndex followed by
displayIndexToFileIndex restores any file index present in the filter,
and fileIndexToDisplayIndex yields -1 for any file index absent from
the filter; without a filter both maps are the identity. -/
theorem tcr_C6 (p : FilesPanel) (f : Int) :
    (∀ l, p.filteredIdxs = some l →
      (f ∈ l → p.displayIndexToFileIndex (p.fileIndexToDisplayIndex f) = f) ∧
      (f ∉ l → p.fileIndexToDisplayIndex f = -1)) ∧
    (p.filteredIdxs = none →
      p.displayIndexToFileIndex (p.fileIndexToDisplayIndex f) = f) := by
  constructor
  · intro l hl
    constructor
    · intro hmem
      obtain ⟨h0, hlt, hget⟩ := scanIndexOf_of_mem l f hmem
      unfold FilesPanel.fileIndexToDisplayIndex FilesPanel.displayIndexToFileIndex
      rw [hl]
      dsimp only
      have hc : (decide (0 ≤ scanIndexOf l f) &&
          decide (scanIndexOf l f < (l.length : Int))) = true := by
        simp [h0, hlt]
      rw [if_pos hc]
      exact hget
    · intro hmem
      unfold FilesPanel.fileIndexToDisplayIndex
      rw [hl]
      dsimp only
      exact scanIndexOf_of_not_mem l f hmem
  · intro hl
    unfold FilesPanel.fileIndexToDisplayIndex FilesPanel.displayIndexToFileIndex
    rw [hl]

/-- C6 witness: filter `[1, 2]` on three files: file index 2 round-trips,
file index 0 is reported "not present" (-1). -/
theorem tcr_C6_witness :
    panelF.filteredIdxs = some [1, 2] ∧
    panelF.displayIndexToFileIndex (panelF.fileIndexToDisplayIndex 2) = 2 ∧
    panelF.fileIndexToDisplayIndex 0 = -1 := by
  have h2 := (tcr_C6 panelF 2).1 [1, 2] rfl
  have h0 := (tcr_C6 panelF 0).1 [1, 2] rfl
  exact ⟨rfl, h2.1 (by decide), h0.2 (by decide)⟩

/-! ## C10 -/

/-- C10: SelectedFile is total and bounds-safe: it yields the file at
the cursor when the cursor is a valid file index, and Go `nil` (here
`none`) otherwise, empty list included. -/
theorem tcr_C10 (p : FilesPanel) :
    (0 ≤ p.cursor ∧ p.cursor < (p.files.length : Int) →
      p.SelectedFile = p.files[p.cursor.toNat]? ∧ p.SelectedFile.isSome = true) ∧
    (¬ (0 ≤ p.cursor ∧ p.cursor < (p.files.length : Int)) →
      p.SelectedFile = none) := by
  constructor
  · intro h
    unfold FilesPanel.SelectedFile
    rw [dif_pos h]
    have hlt : p.cursor.toNat < p.files.length := by omega
    rw [List.getElem?_eq_getElem hlt]
    exact ⟨rfl, rfl⟩
  · intro h
    unfold FilesPanel.SelectedFile
    rw [dif_neg h]

/-- C10 witness: cursor 1 on three files selects the second file; an
empty panel with the same cursor selects nothing. -/
theorem tcr_C10_witness :
    (0 ≤ panel3.cursor ∧ panel3.cursor < (panel3.files.length : Int)) ∧
    panel3.SelectedFile = panel3.files[panel3.cursor.toNat]? ∧
    (panel1.SetFiles []).SelectedFile = none := by
  refine ⟨by decide, ((tcr_C10 panel3).1 (by decide)).1, ?_⟩
  exact (tcr_C10 (panel1.SetFiles [])).2 (by decide)

/-! ## C4 -/

/-- C4: with zero matches NextMatch and PrevMatch change no state; with
N matches and the current index in `[0, N)`, NextMatch yields
`(i + 1) mod N`, PrevMatch yields `i - 1` wrapping to `N - 1` when it
would go negative, and both results stay in `[0, N)`. -/
theorem tcr_C4 (s : SearchState) :
    (s.matchList.length = 0 → s.NextMatch = s ∧ s.PrevMatch = s) ∧
    (0 ≤ s.currentMatch → s.currentMatch < (s.matchList.length : Int) →
      (s.NextMatch.currentMatch = (s.currentMatch + 1) % (s.matchList.length : Int) ∧
       0 ≤ s.NextMatch.currentMatch ∧
       s.NextMatch.currentMatch < (s.matchList.length : Int)) ∧
      (s.PrevMatch.currentMatch =
         (if s.currentMatch = 0 then (s.matchList.length : Int) - 1
          else s.currentMatch - 1) ∧
       0 ≤ s.PrevMatch.currentMatch ∧
       s.PrevMatch.currentMatch < (s.matchList.length : Int))) := by
  constructor
  · intro h
    unfold SearchState.NextMatch SearchState.PrevMatch
    rw [if_pos h, if_pos h]
    exact ⟨rfl, rfl⟩
  · intro h0 hlt
    have hne : s.matchList.length ≠ 0 := by omega
    have hpos : (0 : Int) < (s.matchList.length : Int) := by omega
    constructor
    · unfold SearchState.NextMatch
      rw [if_neg hne]
      have hm : (s.currentMatch + 1).tmod (s.matchList.length : Int) =
          (s.currentMatch + 1) % (s.matchList.length : Int) :=
        Int.tmod_eq_emod (by omega) (by omega)
      refine ⟨hm, ?_, ?_⟩
      · rw [hm]; exact Int.emod_nonneg _ (by omega)
      · rw [hm]; exact Int.emod_lt_of_pos _ hpos
    · unfold SearchState.PrevMatch
      rw [if_neg hne]
      by_cases hz : s.currentMatch = 0
      · rw [if_pos hz]
        dsimp only
        rw [if_pos (by omega)]
        dsimp only
        refine ⟨by omega, by omega, by omega⟩
      · rw [if_neg hz]
        dsimp only
        rw [if_neg (by omega)]
        dsimp only
        refine ⟨by omega, by omega, by omega⟩

/-- A search state with three matches and current match 0. -/
def sstate3 : SearchState :=
  { active := true, matchList := [5, 10, 15], matchSet := [5, 10, 15],
    currentMatch := 0, fzfError := "" }

/-- C4 witness: matches `[5, 10, 15]` at current index 0: NextMatch
yields 1, PrevMatch wraps to 2; NextMatch and PrevMatch on the fresh
(zero-match) state change nothing. -/
theorem tcr_C4_witness :
    (SearchState.new.matchList.length = 0 ∧
     SearchState.new.NextMatch = SearchState.new ∧
     SearchState.new.PrevMatch = SearchState.new) ∧
    (sstate3.NextMatch.currentMatch = 1 ∧ sstate3.PrevMatch.currentMatch = 2) := by
  have hz := (tcr_C4 SearchState.new).1 (by decide)
  have h := (tcr_C4 sstate3).2 (by decide) (by decide)
  refine ⟨⟨by decide, hz.1, hz.2⟩, ?_, ?_⟩
  · rw [h.1.1]; decide
  · rw [h.2.1]; decide

/-! ## C5 -/

/-- C5: immediately after SetSearchMatches with a non-empty list `m`
(and no pending fzf error) the current-match index is 0, the line
cursor is `m[0]` and MatchStatus is `"1/len(m)"`; with the empty list
the current-match index is -1, the line cursor is untouched and
MatchStatus is "no matches". -/
theorem tcr_C5 (p : DiffPanel) (m : List Nat)
    (hfzf : p.searchState.fzfError = "") :
    (m ≠ [] →
      ((p.SetSearchMatches m).searchState.currentMatch = 0 ∧
       (p.SetSearchMatches m).cursorLine = m.headD 0 ∧
       (p.SetSearchMatches m).searchState.MatchStatus =
         "1/" ++ toString m.length)) ∧
    (m = [] →
      ((p.SetSearchMatches m).searchState.currentMatch = -1 ∧
       (p.SetSearchMatches m).cursorLine = p.cursorLine ∧
       (p.SetSearchMatches m).searchState.MatchStatus = "no matches")) := by
  match m with
  | [] =>
    refine ⟨fun h => absurd rfl h, fun _ => ⟨rfl, rfl, ?_⟩⟩
    simp [DiffPanel.SetSearchMatches, SearchState.MatchStatus, hfzf]
  | a :: as =>
    refine ⟨fun _ => ⟨rfl, rfl, ?_⟩, fun h => absurd h (by simp)⟩
    unfold DiffPanel.SetSearchMatches SearchState.MatchStatus
    dsimp only
    rw [hfzf]
    rw [if_neg (by simp), if_neg (by simp)]
    rw [show toString ((0 : Int) + 1) = "1" from rfl]
    rfl

/-- A diff panel in active search mode over six lines. -/
def diffPanel0 : DiffPanel :=
  { lines := ["l0", "l1", "l2", "l3", "l4", "l5"], cursorLine := 3,
    filePath := "a.go", searchState := { SearchState.new with active := true } }

/-- C5 witness: installing `[5, 10, 15]` sets current match 0, jumps the
cursor to line 5 and reports "1/3"; installing `[]` sets the marker to
-1, keeps the cursor at line 3 and reports "no matches". -/
theorem tcr_C5_witness :
    diffPanel0.searchState.fzfError = "" ∧
    (diffPanel0.SetSearchMatches [5, 10, 15]).searchState.currentMatch = 0 ∧
    (diffPanel0.SetSearchMatches [5, 10, 15]).cursorLine = 5 ∧
    (diffPanel0.SetSearchMatches [5, 10, 15]).searchState.MatchStatus = "1/3" ∧
    (diffPanel0.SetSearchMatches []).searchState.currentMatch = -1 ∧
    (diffPanel0.SetSearchMatches []).cursorLine = 3 ∧
    (diffPanel0.SetSearchMatches []).searchState.MatchStatus = "no matches" := by
  have hne := (tcr_C5 diffPanel0 [5, 10, 15] rfl).1 (by decide)
  have hnil := (tcr_C5 diffPanel0 [] rfl).2 rfl
  exact ⟨rfl, hne.1, hne.2.1, hne.2.2, hnil.1, hnil.2.1, hnil.2.2⟩

/-! ## C8 -/

/-- Helper: a freshly inserted key is present in the cache. -/
theorem cacheGet_insert_self (m : DiffCache) (k v : String) :
    cacheGet (cacheInsert m k v) k = some v := by
  simp [cacheGet, cacheInsert]

/-- Helper: inserting any key preserves presence of every key. -/
theorem cacheGet_insert_isSome (m : DiffCache) (k kk v : String)
    (h : (cacheGet m k).isSome = true) :
    (cacheGet (cacheInsert m kk v) k).isSome = true := by
  show (if ((kk, v).1 == k) = true then some (kk, v).2 else cacheGet m k).isSome
    = true
  split
  · rfl
  · exact h

/-- Helper: merging a batch preserves presence of every key. -/
theorem mergeBatch_preserves_isSome (results : List (String × String)) :
    ∀ (m : DiffCache) (k : String), (cacheGet m k).isSome = true →
      (cacheGet (mergeBatch m results) k).isSome = true := by
  induction results with
  | nil => intro m k h; exact h
  | cons r rest ih =>
    intro m k h
    exact ih (cacheInsert m r.1 r.2) k (cacheGet_insert_isSome m k r.1 r.2 h)

/-- Helper: every batch entry's path is present after the merge. -/
theorem mergeBatch_isSome (results : List (String × String)) :
    ∀ (m : DiffCache), ∀ r ∈ results,
      (cacheGet (mergeBatch m results) r.1).isSome = true := by
  induction results with
  | nil => intro m r h; cases h
  | cons a rest ih =>
    intro m r h
    rcases List.mem_cons.mp h with h' | h'
    · subst h'
      exact mergeBatch_preserves_isSome rest (cacheInsert m r.1 r.2) r.1
        (by rw [cacheGet_insert_self]; rfl)
    · exact ih (cacheInsert m a.1 a.2) r h'

/-- C8: processing a preload batch while search is deactivated (either
the controller is inactive or the query is empty) still merges every
batch entry into the diff cache but triggers no re-search: the files
panel (and its filter), the search controller (and its results), and
the diff panel (and its match set) are all unchanged. -/
theorem tcr_C8 (a : App) (results : List (String × String))
    (fzfAvailable : Bool) (matcher lineMatcher : String → String → Bool)
    (h : a.searchCtrl.active = false ∨ a.searchCtrl.query = "") :
    (∀ r ∈ results,
      (cacheGet (a.handleDiffsPreloadedBatch results fzfAvailable matcher
        lineMatcher).diffCache r.1).isSome = true) ∧
    (a.handleDiffsPreloadedBatch results fzfAvailable matcher
      lineMatcher).diffCache = mergeBatch a.diffCache results ∧
    (a.handleDiffsPreloadedBatch results fzfAvailable matcher
      lineMatcher).filesPanel = a.filesPanel ∧
    (a.handleDiffsPreloadedBatch results fzfAvailable matcher
      lineMatcher).searchCtrl = a.searchCtrl ∧
    (a.handleDiffsPreloadedBatch results fzfAvailable matcher
      lineMatcher).diffPanel = a.diffPanel := by
  have hcond : (a.searchCtrl.active && a.searchCtrl.query != "") = false := by
    rcases h with h | h <;> simp [h]
  unfold App.handleDiffsPreloadedBatch
  dsimp only
  rw [hcond]
  exact ⟨fun r hr => mergeBatch_isSome results a.diffCache r hr, rfl, rfl, rfl, rfl⟩

/-- An application state with search deactivated and an empty cache. -/
def app0 : App :=
  { searchCtrl := Controller.new, filesPanel := panel3,
    diffPanel := diffPanel0, diffCache := [] }

/-- C8 witness: a concrete batch processed while search is inactive
lands in the cache and leaves the three state owners untouched. -/
theorem tcr_C8_witness :
    (app0.searchCtrl.active = false ∨ app0.searchCtrl.query = "") ∧
    (cacheGet (app0.handleDiffsPreloadedBatch [("a.go", "+foo")] true
      (fun _ _ => true) (fun _ _ => true)).diffCache "a.go").isSome = true ∧
    (app0.handleDiffsPreloadedBatch [("a.go", "+foo")] true
      (fun _ _ => true) (fun _ _ => true)).searchCtrl = app0.searchCtrl := by
  have h := tcr_C8 app0 [("a.go", "+foo")] true (fun _ _ => true)
    (fun _ _ => true) (Or.inl rfl)
  exact ⟨Or.inl rfl, h.1 ("a.go", "+foo") (List.mem_singleton.mpr rfl),
    h.2.2.2.1⟩

end Tcr
